import Mathlib

/-!
Verification of the stock movement validation engine of Arambh-StockMaster
(`src/inventory/models.py`, `src/inventory/views.py`).

Shallow embedding conventions:
* Database rows are structure values; tables are lists.
* `DecimalField(max_digits=12, decimal_places=2)` quantities are exact
  fixed-point decimals on which the engine only ever adds and negates, so
  they are modelled as integers (think: values scaled by 100).
* `doc_type` and `status` are `CharField`s holding the `TextChoices`
  string values, so they are modelled as `String`.
* Django's `@transaction.atomic` is modelled by `Except`: a function that
  raises inside the transaction returns `.error`, and the caller-visible
  persisted state (`validateRun`) keeps the original store and document in
  that case (rollback).
* Foreign-key resolution of `line.product` is modelled by a lookup in the
  product table; a dangling reference raises `DoesNotExist`.  Creating a
  `StockQuant` row with a `NULL` location violates its non-nullable
  foreign key and raises an integrity error.
-/

/-! ## Data model, engine and auxiliary state (translated from the source) -/

deriving instance DecidableEq for Except

abbrev ProductId := Nat
abbrev LocationId := Nat

/-- Model `inventory.models.StockMoveLine`: one (product, quantity) line of a
stock document. -/
structure StockMoveLine where
  product : ProductId
  quantity : Int
  deriving Repr, DecidableEq

/-- Model `inventory.models.StockDocument`: header fields and owned lines.
`doc_type` and `status` hold the raw `TextChoices` strings. -/
structure StockDocument where
  id : Nat
  docType : String
  status : String
  sourceLocation : Option LocationId
  destinationLocation : Option LocationId
  lines : List StockMoveLine
  deriving Repr, DecidableEq

/-- Model `inventory.models.StockLedgerEntry`: immutable record of one stock
movement (document reference is nullable). -/
structure StockLedgerEntry where
  document : Option Nat
  product : ProductId
  sourceLocation : Option LocationId
  destinationLocation : Option LocationId
  quantityDelta : Int
  deriving Repr, DecidableEq

/-- The persisted store: the `Product` table (ids only — enough for
foreign-key resolution), the `StockQuant` table keyed by the unique
(product, location) pair, and the append-only `StockLedgerEntry` table. -/
structure Store where
  products : List ProductId
  quants : List ((ProductId × LocationId) × Int)
  ledger : List StockLedgerEntry
  deriving Repr, DecidableEq

/-- Choices of `StockDocument.DocTypes`: the choices are receipt, delivery and
internal (`models.py` lines 75–78); there is no adjustment choice. -/
def docTypeChoices : List String := ["receipt", "delivery", "internal"]

/-- First-match read of a quant row; a missing row reads as 0 (it would be
created with default 0 by `get_or_create`). -/
def getQuantValue : List ((ProductId × LocationId) × Int) → ProductId → LocationId → Int
  | [], _, _ => 0
  | q :: rest, p, l => if q.1 = (p, l) then q.2 else getQuantValue rest p l

/-- Semantics of `StockQuant.objects.get_or_create(product, location)` followed by
`quant.quantity += delta; quant.save()`: update the existing row, or
create it with the default quantity 0 and then add the delta. -/
def addQuant : List ((ProductId × LocationId) × Int) → ProductId → LocationId → Int →
    List ((ProductId × LocationId) × Int)
  | [], p, l, d => [((p, l), d)]
  | q :: rest, p, l, d =>
      if q.1 = (p, l) then (q.1, q.2 + d) :: rest else q :: addQuant rest p l d

/-- Translation of `views._update_quant` (views.py lines 31–34).  The location argument
comes from the document header and may be `None`; `StockQuant.location`
is a non-nullable foreign key, so creating the row then raises an
integrity error inside the transaction. -/
def _update_quant (s : Store) (product : ProductId) (location : Option LocationId)
    (delta : Int) : Except String Store :=
  match location with
  | none => .error "IntegrityError: NOT NULL constraint failed: StockQuant.location"
  | some loc => .ok { s with quants := addQuant s.quants product loc delta }

/-- Translation of `views._create_ledger_entry` (views.py lines 37–44): a pure insert. -/
def _create_ledger_entry (s : Store) (document : Nat) (product : ProductId)
    (source : Option LocationId) (destination : Option LocationId) (delta : Int) : Store :=
  { s with ledger := s.ledger ++ [⟨some document, product, source, destination, delta⟩] }

/-- One iteration of the line loop of `views.validate_document`
(views.py lines 52–67).  Inside each branch `line.product` is resolved
first (it is the first argument evaluated for `_update_quant`), raising
`DoesNotExist` on a dangling reference; a `doc_type` matching no branch
leaves the store untouched. -/
def applyLine (doc : StockDocument) (s : Store) (line : StockMoveLine) :
    Except String Store :=
  if doc.docType = "receipt" then
    if line.product ∈ s.products then
      match _update_quant s line.product doc.destinationLocation line.quantity with
      | .error e => .error e
      | .ok s1 => .ok (_create_ledger_entry s1 doc.id line.product none
          doc.destinationLocation line.quantity)
    else .error "Product matching query does not exist"
  else if doc.docType = "delivery" then
    if line.product ∈ s.products then
      match _update_quant s line.product doc.sourceLocation (-line.quantity) with
      | .error e => .error e
      | .ok s1 => .ok (_create_ledger_entry s1 doc.id line.product
          doc.sourceLocation none (-line.quantity))
    else .error "Product matching query does not exist"
  else if doc.docType = "internal" then
    if line.product ∈ s.products then
      match _update_quant s line.product doc.sourceLocation (-line.quantity) with
      | .error e => .error e
      | .ok s1 =>
        match _update_quant s1 line.product doc.destinationLocation line.quantity with
        | .error e => .error e
        | .ok s2 => .ok (_create_ledger_entry s2 doc.id line.product
            doc.sourceLocation doc.destinationLocation line.quantity)
    else .error "Product matching query does not exist"
  else .ok s

/-- The `for line in document.lines.all()` loop of `validate_document`;
the first raised exception aborts the loop. -/
def processLines (doc : StockDocument) : Store → List StockMoveLine → Except String Store
  | s, [] => .ok s
  | s, line :: rest =>
      match applyLine doc s line with
      | .error e => .error e
      | .ok s1 => processLines doc s1 rest

/-- Translation of `views.validate_document` (views.py lines 47–70): return immediately
when the document is already Done, otherwise apply every line and set the
status to done.  `.error` means the body raised; `@transaction.atomic`
then discards every write (see `validateRun`). -/
def validate_document (s : Store) (doc : StockDocument) :
    Except String (Store × StockDocument) :=
  if doc.status = "done" then .ok (s, doc)
  else
    match processLines doc s doc.lines with
    | .error e => .error e
    | .ok s1 => .ok (s1, { doc with status := "done" })

/-- The caller-visible outcome of one `validate_document` call under
`@transaction.atomic`: on success the new store and document are
persisted (flag `true`); on an exception everything is rolled back and
the original store and document survive (flag `false`). -/
def validateRun (s : Store) (doc : StockDocument) : Store × StockDocument × Bool :=
  match validate_document s doc with
  | .ok (s1, d1) => (s1, d1, true)
  | .error _ => (s, doc, false)

/-- Semantics of `StockQuant.objects.filter(product=p, location=l).aggregate(Sum("quantity"))`
with the `or Decimal("0")` fallback of `delivery_detail` (views.py lines
790–795): summed over every matching row; a `None` location filter
matches no row. -/
def quantSum : List ((ProductId × LocationId) × Int) → ProductId → LocationId → Int
  | [], _, _ => 0
  | q :: rest, p, l => (if q.1 = (p, l) then q.2 else 0) + quantSum rest p l

def availableQty (s : Store) (product : ProductId) (location : Option LocationId) : Int :=
  match location with
  | none => 0
  | some loc => quantSum s.quants product loc

/-- The `any_short` flag computed by the line loop of
`views.delivery_detail`: some line requests more than is available at the
document's source location. -/
def anyShort (s : Store) (doc : StockDocument) : Bool :=
  doc.lines.any fun line =>
    decide (availableQty s line.product doc.sourceLocation < line.quantity)

/-- The availability / status recomputation block of `views.delivery_detail`
(views.py lines 784–811): compute `any_short` over the lines, and for a
document still in draft/waiting/ready store the recomputed status when it
differs.  The boolean reports whether a save was performed. -/
def delivery_detail_status (s : Store) (doc : StockDocument) : StockDocument × Bool :=
  if doc.status = "draft" ∨ doc.status = "waiting" ∨ doc.status = "ready" then
    let newStatus := if anyShort s doc then "waiting" else "ready"
    if newStatus ≠ doc.status then ({ doc with status := newStatus }, true)
    else (doc, false)
  else (doc, false)

/-- Total on-hand quantity of a product over all locations. -/
def totalQty : List ((ProductId × LocationId) × Int) → ProductId → Int
  | [], _ => 0
  | q :: rest, p => (if q.1.1 = p then q.2 else 0) + totalQty rest p

/-- Per-(product, location) contribution of one ledger entry under the
reconstruction that actually matches the engine: a destination gains the
delta; a source with no destination (delivery entries, whose recorded
delta is already negative) gains the delta; a source with a destination
(internal entries) loses the delta. -/
def entryContrib (p : ProductId) (l : LocationId) (e : StockLedgerEntry) : Int :=
  if e.product = p then
    (if e.destinationLocation = some l then e.quantityDelta else 0) +
      (if e.sourceLocation = some l then
        (if e.destinationLocation = none then e.quantityDelta else -e.quantityDelta)
       else 0)
  else 0

/-- Quant value reconstructed from the ledger alone, with the corrected
per-entry signs of `entryContrib`. -/
def reconFromLedger : List StockLedgerEntry → ProductId → LocationId → Int
  | [], _, _ => 0
  | e :: rest, p, l => entryContrib p l e + reconFromLedger rest p l

/-- Modelled from the spec: the reconstruction stated in the claim —
"the sum of quantity_delta over entries whose destination is that
location minus the sum over entries whose source is that location". -/
def reconDestMinusSource : List StockLedgerEntry → ProductId → LocationId → Int
  | [], _, _ => 0
  | e :: rest, p, l =>
      (if e.product = p ∧ e.destinationLocation = some l then e.quantityDelta else 0) -
        (if e.product = p ∧ e.sourceLocation = some l then e.quantityDelta else 0) +
        reconDestMinusSource rest p l

/-- Modelled from the spec: the §3 reading — "`quantity` equals the sum
of all ledger-entry deltas for that (product, location) pair", i.e. the
deltas of every entry of the product that mentions the location. -/
def reconAllDeltas : List StockLedgerEntry → ProductId → LocationId → Int
  | [], _, _ => 0
  | e :: rest, p, l =>
      (if e.product = p ∧ (e.sourceLocation = some l ∨ e.destinationLocation = some l)
        then e.quantityDelta else 0) + reconAllDeltas rest p l

/-- States reachable from an empty store by successful `validate_document`
calls (a failed call rolls back and leaves the store untouched). -/
inductive Reachable : Store → Prop
  | empty (ps : List ProductId) : Reachable ⟨ps, [], []⟩
  | step {s : Store} (doc : StockDocument) {s1 : Store} {d1 : StockDocument} :
      Reachable s → validate_document s doc = .ok (s1, d1) → Reachable s1

/-- A receipt, delivery or internal document is missing a location its
type requires. -/
def requiredLocationMissing (doc : StockDocument) : Prop :=
  (doc.docType = "receipt" ∧ doc.destinationLocation = none) ∨
    (doc.docType = "delivery" ∧ doc.sourceLocation = none) ∨
    (doc.docType = "internal" ∧
      (doc.sourceLocation = none ∨ doc.destinationLocation = none))

instance (doc : StockDocument) : Decidable (requiredLocationMissing doc) := by
  unfold requiredLocationMissing; infer_instance

/-- The store produced by one receipt line (derived shape). -/
def receiptResult (doc : StockDocument) (s : Store) (line : StockMoveLine)
    (dl : LocationId) : Store :=
  { s with quants := addQuant s.quants line.product dl line.quantity,
           ledger := s.ledger ++
             [⟨some doc.id, line.product, none, some dl, line.quantity⟩] }

/-- The store produced by one delivery line (derived shape). -/
def deliveryResult (doc : StockDocument) (s : Store) (line : StockMoveLine)
    (sl : LocationId) : Store :=
  { s with quants := addQuant s.quants line.product sl (-line.quantity),
           ledger := s.ledger ++
             [⟨some doc.id, line.product, some sl, none, -line.quantity⟩] }

/-- The store produced by one internal-transfer line (derived shape). -/
def internalResult (doc : StockDocument) (s : Store) (line : StockMoveLine)
    (sl dl : LocationId) : Store :=
  { s with quants := addQuant (addQuant s.quants line.product sl (-line.quantity))
             line.product dl line.quantity,
           ledger := s.ledger ++
             [⟨some doc.id, line.product, some sl, some dl, line.quantity⟩] }

/-- Every stored quant agrees with the value reconstructed from the
ledger alone (with the per-entry signs of `entryContrib`). -/
def LedgerInvariant (s : Store) : Prop :=
  ∀ p l, getQuantValue s.quants p l = reconFromLedger s.ledger p l

/-- Ledger entries recorded for a given document. -/
def entriesFor (es : List StockLedgerEntry) (i : Nat) : List StockLedgerEntry :=
  es.filter fun e => e.document = some i

def demoStore0 : Store := ⟨[1], [], []⟩

def demoDelivery : StockDocument := ⟨1, "delivery", "ready", some 10, none, [⟨1, 30⟩]⟩

def demoDeliveryDone : StockDocument := ⟨1, "delivery", "done", some 10, none, [⟨1, 30⟩]⟩

def demoStore1 : Store := ⟨[1], [((1, 10), -30)], [⟨some 1, 1, some 10, none, -30⟩]⟩

def demoInternal : StockDocument := ⟨2, "internal", "ready", some 11, some 12, [⟨1, 30⟩]⟩

def demoInternalDone : StockDocument := ⟨2, "internal", "done", some 11, some 12, [⟨1, 30⟩]⟩

def demoStore2 : Store :=
  ⟨[1], [((1, 10), -30), ((1, 11), -30), ((1, 12), 30)],
    [⟨some 1, 1, some 10, none, -30⟩, ⟨some 2, 1, some 11, some 12, 30⟩]⟩

def wReceipt : StockDocument := ⟨3, "receipt", "ready", none, some 4, [⟨1, 5⟩]⟩

def wReceiptDone : StockDocument := ⟨3, "receipt", "done", none, some 4, [⟨1, 5⟩]⟩

def wStore1 : Store := ⟨[1], [((1, 4), 5)], [⟨some 3, 1, none, some 4, 5⟩]⟩

def c2Store : Store := ⟨[2], [((2, 1), 7)], []⟩

def c2Internal : StockDocument := ⟨9, "internal", "ready", some 1, some 2, [⟨2, 4⟩]⟩

def atomDoc : StockDocument :=
  ⟨4, "receipt", "ready", none, some 2, [⟨1, 5⟩, ⟨99, 5⟩, ⟨1, 6⟩]⟩

def atomMid : Store := ⟨[1], [((1, 2), 5)], [⟨some 4, 1, none, some 2, 5⟩]⟩

def noLocReceipt : StockDocument := ⟨5, "receipt", "ready", none, none, []⟩

def noDestReceipt : StockDocument := ⟨5, "receipt", "ready", none, none, [⟨1, 5⟩]⟩

def danglingProductReceipt : StockDocument :=
  ⟨5, "receipt", "ready", none, some 2, [⟨99, 5⟩]⟩

def adjustmentDoc : StockDocument := ⟨6, "adjustment", "ready", none, some 20, [⟨1, -15⟩]⟩

def availStore : Store := ⟨[1], [((1, 5), 20)], []⟩

def shortDraftDelivery : StockDocument := ⟨11, "delivery", "draft", some 5, none, [⟨1, 30⟩]⟩

def doneDelivery : StockDocument := ⟨11, "delivery", "done", some 5, none, [⟨1, 30⟩]⟩

def receiptFifty : StockDocument := ⟨8, "receipt", "ready", none, some 1, [⟨1, 50⟩]⟩

def shortDelivery : StockDocument := ⟨12, "delivery", "ready", some 5, none, [⟨1, 30⟩]⟩

def canceledReceipt : StockDocument := ⟨10, "receipt", "canceled", none, some 2, [⟨1, 5⟩]⟩

def canceledReceiptStore : Store := ⟨[1], [((1, 2), 5)], [⟨some 10, 1, none, some 2, 5⟩]⟩

/-! ## Lemmas, claim theorems, witnesses and counterexamples -/

example : validate_document ⟨[1], [], []⟩
    ⟨7, "receipt", "ready", none, some 3, [⟨1, 50⟩]⟩ =
    .ok (⟨[1], [((1, 3), 50)], [⟨some 7, 1, none, some 3, 50⟩]⟩,
      ⟨7, "receipt", "done", none, some 3, [⟨1, 50⟩]⟩) := by decide

theorem getQuantValue_addQuant (qs : List ((ProductId × LocationId) × Int))
    (p : ProductId) (l : LocationId) (d : Int) (p' : ProductId) (l' : LocationId) :
    getQuantValue (addQuant qs p l d) p' l' =
      getQuantValue qs p' l' + (if (p', l') = (p, l) then d else 0) := by
  induction qs with
  | nil =>
      by_cases hc : (p', l') = (p, l)
      · rw [if_pos hc]
        show (if (p, l) = (p', l') then d else getQuantValue [] p' l') = _
        rw [if_pos hc.symm]
        simp [getQuantValue]
      · rw [if_neg hc]
        show (if (p, l) = (p', l') then d else getQuantValue [] p' l') = _
        rw [if_neg fun hx => hc hx.symm]
        simp [getQuantValue]
  | cons q rest ih =>
      show getQuantValue
          (if q.1 = (p, l) then (q.1, q.2 + d) :: rest else q :: addQuant rest p l d)
          p' l' = _
      by_cases h : q.1 = (p, l)
      · rw [if_pos h]
        show (if q.1 = (p', l') then q.2 + d else getQuantValue rest p' l') = _
        by_cases hc : q.1 = (p', l')
        · have hpl : (p', l') = (p, l) := hc.symm.trans h
          rw [if_pos hc, if_pos hpl]
          show _ = (if q.1 = (p', l') then q.2 else getQuantValue rest p' l') + d
          rw [if_pos hc]
        · have hpl : ¬ (p', l') = (p, l) := fun hx => hc (h.trans hx.symm)
          rw [if_neg hc, if_neg hpl]
          show _ = (if q.1 = (p', l') then q.2 else getQuantValue rest p' l') + 0
          rw [if_neg hc]
          omega
      · rw [if_neg h]
        show (if q.1 = (p', l') then q.2 else getQuantValue (addQuant rest p l d) p' l') = _
        by_cases hc : q.1 = (p', l')
        · have hpl : ¬ (p', l') = (p, l) := fun hx => h (hc.trans hx)
          rw [if_pos hc, if_neg hpl]
          show _ = (if q.1 = (p', l') then q.2 else getQuantValue rest p' l') + 0
          rw [if_pos hc]
          omega
        · rw [if_neg hc, ih]
          show _ = (if q.1 = (p', l') then q.2 else getQuantValue rest p' l') + _
          rw [if_neg hc]

theorem totalQty_addQuant (qs : List ((ProductId × LocationId) × Int))
    (p : ProductId) (l : LocationId) (d : Int) (p' : ProductId) :
    totalQty (addQuant qs p l d) p' = totalQty qs p' + (if p' = p then d else 0) := by
  induction qs with
  | nil =>
      show (if p = p' then d else 0) + totalQty [] p' = _
      by_cases hc : p = p'
      · rw [if_pos hc, if_pos hc.symm]
        simp [totalQty]
      · rw [if_neg hc, if_neg fun hx => hc hx.symm]
        simp [totalQty]
  | cons q rest ih =>
      show totalQty
          (if q.1 = (p, l) then (q.1, q.2 + d) :: rest else q :: addQuant rest p l d)
          p' = _
      by_cases h : q.1 = (p, l)
      · rw [if_pos h]
        show (if q.1.1 = p' then q.2 + d else 0) + totalQty rest p' = _
        have hq1 : q.1.1 = p := by rw [h]
        by_cases hc : p' = p
        · rw [if_pos (by rw [hq1, hc]), if_pos hc]
          show _ = (if q.1.1 = p' then q.2 else 0) + totalQty rest p' + d
          rw [if_pos (by rw [hq1, hc])]
          omega
        · rw [if_neg (by rw [hq1]; exact fun hx => hc hx.symm), if_neg hc]
          show _ = (if q.1.1 = p' then q.2 else 0) + totalQty rest p' + 0
          rw [if_neg (by rw [hq1]; exact fun hx => hc hx.symm)]
          omega
      · rw [if_neg h]
        show (if q.1.1 = p' then q.2 else 0) + totalQty (addQuant rest p l d) p' = _
        rw [ih]
        show _ = (if q.1.1 = p' then q.2 else 0) + totalQty rest p' + _
        omega

theorem reconFromLedger_append (es : List StockLedgerEntry) (e : StockLedgerEntry)
    (p : ProductId) (l : LocationId) :
    reconFromLedger (es ++ [e]) p l = reconFromLedger es p l + entryContrib p l e := by
  induction es with
  | nil => simp [reconFromLedger]
  | cons e0 rest ih =>
      show entryContrib p l e0 + reconFromLedger (rest ++ [e]) p l = _
      rw [ih]
      show _ = entryContrib p l e0 + reconFromLedger rest p l + entryContrib p l e
      omega

theorem applyLine_receipt (doc : StockDocument) (s : Store) (line : StockMoveLine)
    (dl : LocationId) (h1 : doc.docType = "receipt")
    (h2 : doc.destinationLocation = some dl) (h3 : line.product ∈ s.products) :
    applyLine doc s line = .ok (receiptResult doc s line dl) := by
  simp [applyLine, h1, h2, h3, _update_quant, _create_ledger_entry, receiptResult]

theorem applyLine_delivery (doc : StockDocument) (s : Store) (line : StockMoveLine)
    (sl : LocationId) (h1 : doc.docType = "delivery")
    (h2 : doc.sourceLocation = some sl) (h3 : line.product ∈ s.products) :
    applyLine doc s line = .ok (deliveryResult doc s line sl) := by
  simp [applyLine, h1, h2, h3, _update_quant, _create_ledger_entry, deliveryResult]

theorem applyLine_internal (doc : StockDocument) (s : Store) (line : StockMoveLine)
    (sl dl : LocationId) (h1 : doc.docType = "internal")
    (h2 : doc.sourceLocation = some sl) (h3 : doc.destinationLocation = some dl)
    (h4 : line.product ∈ s.products) :
    applyLine doc s line = .ok (internalResult doc s line sl dl) := by
  simp [applyLine, h1, h2, h3, h4, _update_quant, _create_ledger_entry, internalResult]

theorem applyLine_unknown (doc : StockDocument) (s : Store) (line : StockMoveLine)
    (h : doc.docType ∉ docTypeChoices) : applyLine doc s line = .ok s := by
  simp only [docTypeChoices, List.mem_cons, List.mem_singleton, not_or] at h
  obtain ⟨h1, h2, h3, -⟩ := h
  simp [applyLine, h1, h2, h3]

/-- Exhaustive case analysis of a successful line application. -/
theorem applyLine_ok_cases (doc : StockDocument) (s : Store) (line : StockMoveLine)
    (s1 : Store) (h : applyLine doc s line = .ok s1) :
    (doc.docType ∉ docTypeChoices ∧ s1 = s) ∨
    (line.product ∈ s.products ∧
      ((∃ dl, doc.docType = "receipt" ∧ doc.destinationLocation = some dl ∧
          s1 = receiptResult doc s line dl) ∨
       (∃ sl, doc.docType = "delivery" ∧ doc.sourceLocation = some sl ∧
          s1 = deliveryResult doc s line sl) ∨
       (∃ sl dl, doc.docType = "internal" ∧ doc.sourceLocation = some sl ∧
          doc.destinationLocation = some dl ∧
          s1 = internalResult doc s line sl dl))) := by
  by_cases hR : doc.docType = "receipt"
  · by_cases hm : line.product ∈ s.products
    · cases hd : doc.destinationLocation with
      | none => simp [applyLine, hR, hm, hd, _update_quant] at h
      | some dl =>
          rw [applyLine_receipt doc s line dl hR hd hm] at h
          exact Or.inr ⟨hm, Or.inl ⟨dl, hR, rfl, (Except.ok.inj h).symm⟩⟩
    · simp [applyLine, hR, hm] at h
  · by_cases hD : doc.docType = "delivery"
    · by_cases hm : line.product ∈ s.products
      · cases hs : doc.sourceLocation with
        | none => simp [applyLine, hR, hD, hm, hs, _update_quant] at h
        | some sl =>
            rw [applyLine_delivery doc s line sl hD hs hm] at h
            exact Or.inr ⟨hm, Or.inr (Or.inl ⟨sl, hD, rfl, (Except.ok.inj h).symm⟩)⟩
      · simp [applyLine, hR, hD, hm] at h
    · by_cases hI : doc.docType = "internal"
      · by_cases hm : line.product ∈ s.products
        · cases hs : doc.sourceLocation with
          | none => simp [applyLine, hR, hD, hI, hm, hs, _update_quant] at h
          | some sl =>
              cases hd : doc.destinationLocation with
              | none => simp [applyLine, hR, hD, hI, hm, hs, hd, _update_quant] at h
              | some dl =>
                  rw [applyLine_internal doc s line sl dl hI hs hd hm] at h
                  exact Or.inr ⟨hm, Or.inr (Or.inr
                    ⟨sl, dl, hI, rfl, rfl, (Except.ok.inj h).symm⟩)⟩
        · simp [applyLine, hR, hD, hI, hm] at h
      · have hnot : doc.docType ∉ docTypeChoices := by
          simp [docTypeChoices, hR, hD, hI]
        rw [applyLine_unknown doc s line hnot] at h
        exact Or.inl ⟨hnot, (Except.ok.inj h).symm⟩

theorem processLines_cons_ok (doc : StockDocument) (s s1 : Store)
    (line : StockMoveLine) (rest : List StockMoveLine)
    (h : applyLine doc s line = .ok s1) :
    processLines doc s (line :: rest) = processLines doc s1 rest := by
  simp [processLines, h]

theorem processLines_cons_err (doc : StockDocument) (s : Store)
    (line : StockMoveLine) (rest : List StockMoveLine) (e : String)
    (h : applyLine doc s line = .error e) :
    processLines doc s (line :: rest) = .error e := by
  simp [processLines, h]

theorem processLines_nil_ok (doc : StockDocument) (s : Store) :
    processLines doc s [] = .ok s := rfl

theorem validate_document_status (s : Store) (doc : StockDocument)
    (s1 : Store) (d1 : StockDocument)
    (h : validate_document s doc = .ok (s1, d1)) : d1.status = "done" := by
  unfold validate_document at h
  split_ifs at h with hst
  · simp only [Except.ok.injEq, Prod.mk.injEq] at h
    obtain ⟨-, h2⟩ := h
    rw [← h2]
    exact hst
  · cases hp : processLines doc s doc.lines with
    | error e => rw [hp] at h; simp at h
    | ok s2 =>
        rw [hp] at h
        simp only [Except.ok.injEq, Prod.mk.injEq] at h
        obtain ⟨-, h2⟩ := h
        rw [← h2]

theorem validate_document_of_done (s : Store) (doc : StockDocument)
    (h : doc.status = "done") : validate_document s doc = .ok (s, doc) := by
  simp [validate_document, h]

theorem validateRun_of_error (s : Store) (doc : StockDocument)
    (h : ∃ e, validate_document s doc = .error e) :
    validateRun s doc = (s, doc, false) := by
  obtain ⟨e, he⟩ := h
  simp [validateRun, he]

theorem contrib_receipt (docid : Nat) (pid : ProductId) (dl : LocationId) (q : Int)
    (p : ProductId) (l : LocationId) :
    entryContrib p l ⟨some docid, pid, none, some dl, q⟩ =
      if (p, l) = (pid, dl) then q else 0 := by
  unfold entryContrib
  by_cases hp : p = pid
  · subst hp
    by_cases hl : l = dl
    · subst hl; simp
    · simp [Prod.mk.injEq, hl, Ne.symm hl]
  · simp [Prod.mk.injEq, hp, Ne.symm hp]

theorem contrib_delivery (docid : Nat) (pid : ProductId) (sl : LocationId) (d : Int)
    (p : ProductId) (l : LocationId) :
    entryContrib p l ⟨some docid, pid, some sl, none, d⟩ =
      if (p, l) = (pid, sl) then d else 0 := by
  unfold entryContrib
  by_cases hp : p = pid
  · subst hp
    by_cases hl : l = sl
    · subst hl; simp
    · simp [Prod.mk.injEq, hl, Ne.symm hl]
  · simp [Prod.mk.injEq, hp, Ne.symm hp]

theorem contrib_internal (docid : Nat) (pid : ProductId) (sl dl : LocationId) (q : Int)
    (p : ProductId) (l : LocationId) :
    entryContrib p l ⟨some docid, pid, some sl, some dl, q⟩ =
      (if (p, l) = (pid, sl) then -q else 0) + (if (p, l) = (pid, dl) then q else 0) := by
  unfold entryContrib
  by_cases hp : p = pid
  · subst hp
    by_cases hs : l = sl
    · subst hs
      by_cases hd : dl = l
      · subst hd
        simp
      · simp [Prod.mk.injEq, hd, Ne.symm hd]
    · by_cases hd : l = dl
      · subst hd
        simp [Prod.mk.injEq, hs, Ne.symm hs]
      · simp [Prod.mk.injEq, hs, Ne.symm hs, hd, Ne.symm hd]
  · simp [Prod.mk.injEq, hp, Ne.symm hp]

theorem applyLine_invariant (doc : StockDocument) (s : Store) (line : StockMoveLine)
    (s1 : Store) (hInv : LedgerInvariant s) (h : applyLine doc s line = .ok s1) :
    LedgerInvariant s1 := by
  rcases applyLine_ok_cases doc s line s1 h with ⟨-, rfl⟩ | ⟨-, hcase⟩
  · exact hInv
  · rcases hcase with ⟨dl, -, -, rfl⟩ | ⟨sl, -, -, rfl⟩ | ⟨sl, dl, -, -, -, rfl⟩
    · intro p l
      show getQuantValue (addQuant s.quants line.product dl line.quantity) p l =
        reconFromLedger (s.ledger ++
          [⟨some doc.id, line.product, none, some dl, line.quantity⟩]) p l
      rw [getQuantValue_addQuant, reconFromLedger_append, contrib_receipt, hInv p l]
    · intro p l
      show getQuantValue (addQuant s.quants line.product sl (-line.quantity)) p l =
        reconFromLedger (s.ledger ++
          [⟨some doc.id, line.product, some sl, none, -line.quantity⟩]) p l
      rw [getQuantValue_addQuant, reconFromLedger_append, contrib_delivery, hInv p l]
    · intro p l
      show getQuantValue (addQuant (addQuant s.quants line.product sl (-line.quantity))
          line.product dl line.quantity) p l =
        reconFromLedger (s.ledger ++
          [⟨some doc.id, line.product, some sl, some dl, line.quantity⟩]) p l
      rw [getQuantValue_addQuant, getQuantValue_addQuant, reconFromLedger_append,
        contrib_internal, hInv p l]
      omega

theorem processLines_invariant (doc : StockDocument) :
    ∀ (ls : List StockMoveLine) (s s1 : Store),
      LedgerInvariant s → processLines doc s ls = .ok s1 → LedgerInvariant s1
  | [], s, s1, hInv, h => by
      rw [processLines_nil_ok] at h
      rw [← Except.ok.inj h]
      exact hInv
  | line :: rest, s, s1, hInv, h => by
      cases ha : applyLine doc s line with
      | error e =>
          rw [processLines_cons_err doc s line rest e ha] at h
          simp at h
      | ok s2 =>
          rw [processLines_cons_ok doc s s2 line rest ha] at h
          exact processLines_invariant doc rest s2 s1
            (applyLine_invariant doc s line s2 hInv ha) h

theorem validate_document_invariant (s : Store) (doc : StockDocument)
    (s1 : Store) (d1 : StockDocument) (hInv : LedgerInvariant s)
    (h : validate_document s doc = .ok (s1, d1)) : LedgerInvariant s1 := by
  unfold validate_document at h
  split_ifs at h with hst
  · simp only [Except.ok.injEq, Prod.mk.injEq] at h
    obtain ⟨h1, -⟩ := h
    rw [← h1]
    exact hInv
  · cases hp : processLines doc s doc.lines with
    | error e => rw [hp] at h; simp at h
    | ok s2 =>
        rw [hp] at h
        simp only [Except.ok.injEq, Prod.mk.injEq] at h
        obtain ⟨h1, -⟩ := h
        rw [← h1]
        exact processLines_invariant doc doc.lines s s2 hInv hp

theorem reachable_invariant (s : Store) (h : Reachable s) : LedgerInvariant s := by
  induction h with
  | empty ps => intro p l; simp [getQuantValue, reconFromLedger]
  | step doc hr hv ih => exact validate_document_invariant _ doc _ _ ih hv

theorem entriesFor_append (es es' : List StockLedgerEntry) (i : Nat) :
    entriesFor (es ++ es') i = entriesFor es i ++ entriesFor es' i := by
  simp [entriesFor, List.filter_append]

theorem applyLine_ledger_count (doc : StockDocument) (s : Store) (line : StockMoveLine)
    (s1 : Store) (hc : doc.docType ∈ docTypeChoices) (h : applyLine doc s line = .ok s1) :
    (entriesFor s1.ledger doc.id).length = (entriesFor s.ledger doc.id).length + 1 := by
  rcases applyLine_ok_cases doc s line s1 h with ⟨hn, -⟩ | ⟨-, hcase⟩
  · exact absurd hc hn
  · rcases hcase with ⟨dl, -, -, rfl⟩ | ⟨sl, -, -, rfl⟩ | ⟨sl, dl, -, -, -, rfl⟩ <;>
      simp [receiptResult, deliveryResult, internalResult, entriesFor_append, entriesFor]

theorem processLines_ledger_count (doc : StockDocument)
    (hc : doc.docType ∈ docTypeChoices) :
    ∀ (ls : List StockMoveLine) (s s1 : Store),
      processLines doc s ls = .ok s1 →
      (entriesFor s1.ledger doc.id).length = (entriesFor s.ledger doc.id).length + ls.length
  | [], s, s1, h => by
      rw [processLines_nil_ok] at h
      rw [← Except.ok.inj h]
      simp
  | line :: rest, s, s1, h => by
      cases ha : applyLine doc s line with
      | error e =>
          rw [processLines_cons_err doc s line rest e ha] at h
          simp at h
      | ok s2 =>
          rw [processLines_cons_ok doc s s2 line rest ha] at h
          have h1 := applyLine_ledger_count doc s line s2 hc ha
          have h2 := processLines_ledger_count doc hc rest s2 s1 h
          rw [h2, h1]
          simp [List.length_cons]
          omega

theorem getQuantValue_absent (qs : List ((ProductId × LocationId) × Int))
    (p : ProductId) (l : LocationId) (h : ∀ e ∈ qs, e.1 ≠ (p, l)) :
    getQuantValue qs p l = 0 := by
  induction qs with
  | nil => rfl
  | cons q rest ih =>
      show (if q.1 = (p, l) then q.2 else getQuantValue rest p l) = 0
      rw [if_neg (h q (List.mem_cons_self q rest))]
      exact ih fun e he => h e (List.mem_cons_of_mem q he)

theorem addQuant_absent (qs : List ((ProductId × LocationId) × Int))
    (p : ProductId) (l : LocationId) (d : Int) (h : ∀ e ∈ qs, e.1 ≠ (p, l)) :
    addQuant qs p l d = qs ++ [((p, l), d)] := by
  induction qs with
  | nil => rfl
  | cons q rest ih =>
      show (if q.1 = (p, l) then (q.1, q.2 + d) :: rest else q :: addQuant rest p l d) = _
      rw [if_neg (h q (List.mem_cons_self q rest))]
      rw [ih fun e he => h e (List.mem_cons_of_mem q he)]
      rfl

theorem applyLine_product_missing (doc : StockDocument) (s : Store)
    (line : StockMoveLine) (hc : doc.docType ∈ docTypeChoices)
    (hm : line.product ∉ s.products) :
    applyLine doc s line = .error "Product matching query does not exist" := by
  simp [docTypeChoices] at hc
  rcases hc with hR | hD | hI
  · simp [applyLine, hR, hm]
  · by_cases hR : doc.docType = "receipt"
    · rw [hR] at hD; simp at hD
    · simp [applyLine, hR, hD, hm]
  · by_cases hR : doc.docType = "receipt"
    · rw [hR] at hI; simp at hI
    · by_cases hD : doc.docType = "delivery"
      · rw [hD] at hI; simp at hI
      · simp [applyLine, hR, hD, hI, hm]

theorem applyLine_missing_location (doc : StockDocument) (s : Store)
    (line : StockMoveLine) (hc : doc.docType ∈ docTypeChoices)
    (hmiss : requiredLocationMissing doc) :
    ∃ e, applyLine doc s line = .error e := by
  by_cases hm : line.product ∈ s.products
  · rcases hmiss with ⟨hR, hd⟩ | ⟨hD, hs⟩ | ⟨hI, hsd⟩
    · exact ⟨"IntegrityError: NOT NULL constraint failed: StockQuant.location", by simp [applyLine, hR, hd, hm, _update_quant]⟩
    · have hR : doc.docType ≠ "receipt" := by rw [hD]; decide
      exact ⟨"IntegrityError: NOT NULL constraint failed: StockQuant.location", by simp [applyLine, hR, hD, hs, hm, _update_quant]⟩
    · have hR : doc.docType ≠ "receipt" := by rw [hI]; decide
      have hD : doc.docType ≠ "delivery" := by rw [hI]; decide
      rcases hsd with hs | hd
      · exact ⟨"IntegrityError: NOT NULL constraint failed: StockQuant.location", by simp [applyLine, hR, hD, hI, hs, hm, _update_quant]⟩
      · cases hsrc : doc.sourceLocation with
        | none => exact ⟨"IntegrityError: NOT NULL constraint failed: StockQuant.location", by simp [applyLine, hR, hD, hI, hsrc, hm, _update_quant]⟩
        | some sl =>
            exact ⟨"IntegrityError: NOT NULL constraint failed: StockQuant.location", by simp [applyLine, hR, hD, hI, hsrc, hd, hm, _update_quant]⟩
  · exact ⟨_, applyLine_product_missing doc s line hc hm⟩

theorem quantSum_absent (qs : List ((ProductId × LocationId) × Int))
    (p : ProductId) (l : LocationId) (h : ∀ e ∈ qs, e.1 ≠ (p, l)) :
    quantSum qs p l = 0 := by
  induction qs with
  | nil => rfl
  | cons q rest ih =>
      show (if q.1 = (p, l) then q.2 else 0) + quantSum rest p l = 0
      rw [if_neg (h q (List.mem_cons_self q rest))]
      rw [ih fun e he => h e (List.mem_cons_of_mem q he)]
      omega

theorem demoStore1_step :
    validate_document demoStore0 demoDelivery = .ok (demoStore1, demoDeliveryDone) := by
  decide

theorem demoStore2_step :
    validate_document demoStore1 demoInternal = .ok (demoStore2, demoInternalDone) := by
  decide

theorem demoStore2_reachable : Reachable demoStore2 :=
  @Reachable.step demoStore1 demoInternal demoStore2 demoInternalDone
    (@Reachable.step demoStore0 demoDelivery demoStore1 demoDeliveryDone
      (Reachable.empty [1]) demoStore1_step)
    demoStore2_step

/-- Claim C1: validation is idempotent.  A Done document is returned
unchanged; after any successful validation a second call is a no-op with
the same store and document; and a successful validation of a valid-typed
document creates exactly one ledger entry per line for that document
(zero when it was already Done). -/
theorem validation_idempotent (s : Store) (doc : StockDocument)
    (s1 : Store) (d1 : StockDocument) :
    (doc.status = "done" → validate_document s doc = .ok (s, doc)) ∧
    (validate_document s doc = .ok (s1, d1) →
      validate_document s1 d1 = .ok (s1, d1)) ∧
    (doc.docType ∈ docTypeChoices → validate_document s doc = .ok (s1, d1) →
      (entriesFor s1.ledger doc.id).length = (entriesFor s.ledger doc.id).length +
        (if doc.status = "done" then 0 else doc.lines.length)) := by
  refine ⟨fun h => validate_document_of_done s doc h, fun h => ?_, fun hc h => ?_⟩
  · exact validate_document_of_done s1 d1 (validate_document_status s doc s1 d1 h)
  · unfold validate_document at h
    split_ifs at h with hst
    · simp only [Except.ok.injEq, Prod.mk.injEq] at h
      obtain ⟨h1, -⟩ := h
      rw [← h1, if_pos hst]
      omega
    · cases hp : processLines doc s doc.lines with
      | error e => rw [hp] at h; simp at h
      | ok s2 =>
          rw [hp] at h
          simp only [Except.ok.injEq, Prod.mk.injEq] at h
          obtain ⟨h1, -⟩ := h
          rw [← h1, if_neg hst]
          exact processLines_ledger_count doc hc doc.lines s s2 hp

/-- Witness for C1 at a concrete one-line receipt. -/
theorem validation_idempotent_witness :
    validate_document wStore1 wReceiptDone = .ok (wStore1, wReceiptDone) ∧
    (entriesFor wStore1.ledger wReceipt.id).length =
      (entriesFor demoStore0.ledger wReceipt.id).length +
        (if wReceipt.status = "done" then 0 else wReceipt.lines.length) :=
  ⟨(validation_idempotent demoStore0 wReceipt wStore1 wReceiptDone).2.1 (by decide),
   (validation_idempotent demoStore0 wReceipt wStore1 wReceiptDone).2.2
     (by decide) (by decide)⟩

/-- Claim C2: an internal transfer of quantity q from a to b subtracts q
at (p, a), adds q at (p, b), appends exactly one ledger entry with
source a, destination b and delta +q, and preserves the product's total
quantity over all locations. -/
theorem internal_transfer_conservation (s : Store) (doc : StockDocument)
    (p : ProductId) (q : Int) (a b : LocationId)
    (h1 : doc.docType = "internal") (h2 : doc.status ≠ "done")
    (h3 : doc.sourceLocation = some a) (h4 : doc.destinationLocation = some b)
    (h5 : a ≠ b) (h6 : doc.lines = [⟨p, q⟩]) (h7 : p ∈ s.products) :
    validate_document s doc =
      .ok ({ s with
              quants := addQuant (addQuant s.quants p a (-q)) p b q,
              ledger := s.ledger ++ [⟨some doc.id, p, some a, some b, q⟩] },
           { doc with status := "done" }) ∧
    getQuantValue (addQuant (addQuant s.quants p a (-q)) p b q) p a =
      getQuantValue s.quants p a - q ∧
    getQuantValue (addQuant (addQuant s.quants p a (-q)) p b q) p b =
      getQuantValue s.quants p b + q ∧
    (∀ p', totalQty (addQuant (addQuant s.quants p a (-q)) p b q) p' =
      totalQty s.quants p') := by
  have hap : applyLine doc s ⟨p, q⟩ = .ok (internalResult doc s ⟨p, q⟩ a b) :=
    applyLine_internal doc s ⟨p, q⟩ a b h1 h3 h4 h7
  have hba : ¬ ((p, a) = (p, b)) := fun hx => h5 (congrArg Prod.snd hx)
  have hab : ¬ ((p, b) = (p, a)) := fun hx => h5 (congrArg Prod.snd hx).symm
  refine ⟨?_, ?_, ?_, fun p' => ?_⟩
  · unfold validate_document
    rw [if_neg h2, h6, processLines_cons_ok doc s _ _ [] hap, processLines_nil_ok]
    rfl
  · rw [getQuantValue_addQuant, if_neg hba, getQuantValue_addQuant, if_pos rfl]
    omega
  · rw [getQuantValue_addQuant, if_pos rfl, getQuantValue_addQuant, if_neg hab]
    omega
  · rw [totalQty_addQuant, totalQty_addQuant]
    split_ifs <;> omega

/-- Witness for C2 at a concrete internal transfer of 4 units. -/
theorem internal_transfer_conservation_witness :
    validate_document c2Store c2Internal =
      .ok ({ c2Store with
              quants := addQuant (addQuant c2Store.quants 2 1 (-4)) 2 2 4,
              ledger := c2Store.ledger ++ [⟨some c2Internal.id, 2, some 1, some 2, 4⟩] },
           { c2Internal with status := "done" }) ∧
    getQuantValue (addQuant (addQuant c2Store.quants 2 1 (-4)) 2 2 4) 2 1 =
      getQuantValue c2Store.quants 2 1 - 4 ∧
    getQuantValue (addQuant (addQuant c2Store.quants 2 1 (-4)) 2 2 4) 2 2 =
      getQuantValue c2Store.quants 2 2 + 4 ∧
    (∀ p', totalQty (addQuant (addQuant c2Store.quants 2 1 (-4)) 2 2 4) p' =
      totalQty c2Store.quants p') :=
  internal_transfer_conservation c2Store c2Internal 2 4 1 2
    (by decide) (by decide) (by decide) (by decide) (by decide) (by decide) (by decide)

/-- Claim C3 counterexample: in a state reached by validating one
delivery and one internal transfer from an empty store, the stored quant
differs both from the claim's destination-minus-source reconstruction
(at the delivery source) and from the sum-of-all-deltas-for-the-pair
reconstruction (at the internal source). -/
theorem ledger_reconstruction_spec_counterexample :
    Reachable demoStore2 ∧
    getQuantValue demoStore2.quants 1 10 ≠ reconDestMinusSource demoStore2.ledger 1 10 ∧
    getQuantValue demoStore2.quants 1 11 ≠ reconAllDeltas demoStore2.ledger 1 11 :=
  ⟨demoStore2_reachable, by decide, by decide⟩

/-- Claim C3 (amended): at every state reachable by successful
validations from an empty store, the stored quant equals the ledger
reconstruction in which a destination gains the recorded delta, a
source-only (delivery) entry adds its already-negative delta, and the
source of a source-and-destination (internal) entry loses the delta. -/
theorem ledger_reconciles_reachable (s : Store) (h : Reachable s)
    (p : ProductId) (l : LocationId) :
    getQuantValue s.quants p l = reconFromLedger s.ledger p l :=
  reachable_invariant s h p l

/-- Witness for C3 (amended) at the two-document reachable state. -/
theorem ledger_reconciles_reachable_witness :
    getQuantValue demoStore2.quants 1 10 = reconFromLedger demoStore2.ledger 1 10 :=
  ledger_reconciles_reachable demoStore2 demoStore2_reachable 1 10

/-- Claim C4: validation is atomic under failure — when the second line
of a three-line document raises after the first line succeeded, the whole
call raises and the persisted outcome keeps the original store and the
original document status. -/
theorem validation_atomic_on_failure (s : Store) (doc : StockDocument)
    (l1 l2 l3 : StockMoveLine) (s1 : Store) (e : String)
    (h1 : doc.status ≠ "done") (h2 : doc.lines = [l1, l2, l3])
    (h3 : applyLine doc s l1 = .ok s1) (h4 : applyLine doc s1 l2 = .error e) :
    validate_document s doc = .error e ∧ validateRun s doc = (s, doc, false) := by
  have hv : validate_document s doc = .error e := by
    unfold validate_document
    rw [if_neg h1, h2, processLines_cons_ok doc s s1 l1 [l2, l3] h3,
      processLines_cons_err doc s1 l2 [l3] e h4]
  exact ⟨hv, by simp [validateRun, hv]⟩

/-- Witness for C4: line 2 references the dangling product 99; line 1 had
already moved stock in the open transaction, and everything is rolled
back. -/
theorem validation_atomic_on_failure_witness :
    (validate_document demoStore0 atomDoc =
      .error "Product matching query does not exist" ∧
     validateRun demoStore0 atomDoc = (demoStore0, atomDoc, false)) ∧
    atomMid ≠ demoStore0 :=
  ⟨validation_atomic_on_failure demoStore0 atomDoc ⟨1, 5⟩ ⟨99, 5⟩ ⟨1, 6⟩ atomMid
      "Product matching query does not exist"
      (by decide) (by decide) (by decide) (by decide),
   by decide⟩

/-- Claim C5 counterexample: a Receipt with no destination location (and
no lines) is not rejected with any error: validation succeeds, performs
no check, and persists the Done status. -/
theorem validate_no_precheck_counterexample :
    requiredLocationMissing noLocReceipt ∧
    validate_document demoStore0 noLocReceipt =
      .ok (demoStore0, { noLocReceipt with status := "done" }) :=
  ⟨by decide, by decide⟩

/-- Claim C5 (amended): `validate_document` performs no precondition
checks.  A document of valid type whose required location is missing and
that has at least one line aborts with a storage-layer error while
processing lines, and the transaction rolls back leaving store and
document unchanged; a first line whose product cannot be resolved
likewise aborts with full rollback; a document with no lines is marked
Done regardless of its locations. -/
theorem validate_missing_location_rollback (s : Store) (doc : StockDocument) :
    (doc.docType ∈ docTypeChoices → requiredLocationMissing doc →
      doc.status ≠ "done" → doc.lines ≠ [] →
      validateRun s doc = (s, doc, false)) ∧
    (doc.docType ∈ docTypeChoices → doc.status ≠ "done" →
      ∀ line rest, doc.lines = line :: rest → line.product ∉ s.products →
        validateRun s doc = (s, doc, false)) ∧
    (doc.status ≠ "done" → doc.lines = [] →
      validate_document s doc = .ok (s, { doc with status := "done" })) := by
  refine ⟨fun hc hmiss hst hne => ?_, fun hc hst line rest hl hm => ?_, fun hst hl => ?_⟩
  · cases hl : doc.lines with
    | nil => exact absurd hl hne
    | cons line rest =>
        obtain ⟨e, he⟩ := applyLine_missing_location doc s line hc hmiss
        refine validateRun_of_error s doc ⟨e, ?_⟩
        unfold validate_document
        rw [if_neg hst, hl, processLines_cons_err doc s line rest e he]
  · have he := applyLine_product_missing doc s line hc hm
    refine validateRun_of_error s doc ⟨"Product matching query does not exist", ?_⟩
    unfold validate_document
    rw [if_neg hst, hl, processLines_cons_err doc s line rest _ he]
  · unfold validate_document
    rw [if_neg hst, hl, processLines_nil_ok]

/-- Witness for C5 (amended) at three concrete documents. -/
theorem validate_missing_location_rollback_witness :
    validateRun demoStore0 noDestReceipt = (demoStore0, noDestReceipt, false) ∧
    validateRun demoStore0 danglingProductReceipt =
      (demoStore0, danglingProductReceipt, false) ∧
    validate_document demoStore0 noLocReceipt =
      .ok (demoStore0, { noLocReceipt with status := "done" }) :=
  ⟨(validate_missing_location_rollback demoStore0 noDestReceipt).1
      (by decide) (by decide) (by decide) (by decide),
   (validate_missing_location_rollback demoStore0 danglingProductReceipt).2.1
      (by decide) (by decide) ⟨99, 5⟩ [] rfl (by decide),
   (validate_missing_location_rollback demoStore0 noLocReceipt).2.2 (by decide) rfl⟩

/-- Claim C6 counterexample: the document type choices contain no
adjustment value, and validating a document labelled "adjustment" with a
signed line applies no quantity or ledger effect at all — the store comes
back unchanged, only the status becomes Done.  This contradicts the
claimed signed-delta application and ledger entry. -/
theorem adjustment_unsupported_counterexample :
    "adjustment" ∉ docTypeChoices ∧
    validate_document demoStore0 adjustmentDoc =
      .ok (demoStore0, { adjustmentDoc with status := "done" }) :=
  ⟨by decide, by decide⟩

/-- Claim C6 (amended): there is no Adjustment document type; a document
whose `doc_type` is not among the three choices (in particular
"adjustment") receives no quant update and no ledger entry from
validation, which still marks it Done. -/
theorem adjustment_not_supported (s : Store) (doc : StockDocument)
    (hc : doc.docType ∉ docTypeChoices) (hst : doc.status ≠ "done") :
    validate_document s doc = .ok (s, { doc with status := "done" }) ∧
    "adjustment" ∉ docTypeChoices := by
  refine ⟨?_, by decide⟩
  have hall : ∀ (ls : List StockMoveLine) (s0 : Store), processLines doc s0 ls = .ok s0 := by
    intro ls
    induction ls with
    | nil => intro s0; rfl
    | cons l rest ih =>
        intro s0
        rw [processLines_cons_ok doc s0 s0 l rest (applyLine_unknown doc s0 l hc)]
        exact ih s0
  unfold validate_document
  rw [if_neg hst, hall doc.lines s]

/-- Witness for C6 (amended) at the concrete "adjustment" document. -/
theorem adjustment_not_supported_witness :
    validate_document demoStore0 adjustmentDoc =
      .ok (demoStore0, { adjustmentDoc with status := "done" }) ∧
    "adjustment" ∉ docTypeChoices :=
  adjustment_not_supported demoStore0 adjustmentDoc (by decide) (by decide)

theorem anyShort_iff (s : Store) (doc : StockDocument) :
    anyShort s doc = true ↔
      ∃ line ∈ doc.lines,
        availableQty s line.product doc.sourceLocation < line.quantity := by
  simp [anyShort, List.any_eq_true]

theorem delivery_detail_status_open (s : Store) (doc : StockDocument)
    (hopen : doc.status = "draft" ∨ doc.status = "waiting" ∨ doc.status = "ready") :
    (delivery_detail_status s doc).1.status =
      (if anyShort s doc then "waiting" else "ready") := by
  unfold delivery_detail_status
  rw [if_pos hopen]
  by_cases hne : (if anyShort s doc then "waiting" else "ready") ≠ doc.status
  · rw [if_pos hne]
  · rw [if_neg hne]
    push_neg at hne
    exact hne.symm

theorem delivery_detail_flag_open (s : Store) (doc : StockDocument)
    (hopen : doc.status = "draft" ∨ doc.status = "waiting" ∨ doc.status = "ready") :
    ((delivery_detail_status s doc).2 = true ↔
      (delivery_detail_status s doc).1.status ≠ doc.status) := by
  unfold delivery_detail_status
  rw [if_pos hopen]
  by_cases hne : (if anyShort s doc then "waiting" else "ready") ≠ doc.status
  · rw [if_pos hne]
    exact iff_of_true rfl hne
  · rw [if_neg hne]
    push_neg at hne
    refine iff_of_false (by simp) fun hx => hx rfl

/-- Claim C7: on every read of a delivery document still in
draft/waiting/ready, the recomputed status is Waiting exactly when some
line requests more than the summed quant at the source location (an
absent quant counting as zero), Ready otherwise; the stored status is
written only when the recomputed value differs; Done and Canceled
documents are never recomputed or overwritten. -/
theorem delivery_detail_availability (s : Store) (doc : StockDocument) :
    ((doc.status = "draft" ∨ doc.status = "waiting" ∨ doc.status = "ready") →
      (((delivery_detail_status s doc).1.status = "waiting" ↔
          ∃ line ∈ doc.lines,
            availableQty s line.product doc.sourceLocation < line.quantity) ∧
       ((delivery_detail_status s doc).1.status = "ready" ↔
          ¬ ∃ line ∈ doc.lines,
            availableQty s line.product doc.sourceLocation < line.quantity) ∧
       ((delivery_detail_status s doc).2 = true ↔
          (delivery_detail_status s doc).1.status ≠ doc.status))) ∧
    ((doc.status = "done" ∨ doc.status = "canceled") →
      delivery_detail_status s doc = (doc, false)) ∧
    (∀ p loc, (∀ e ∈ s.quants, e.1 ≠ (p, loc)) → availableQty s p (some loc) = 0) := by
  refine ⟨fun hopen => ⟨?_, ?_, delivery_detail_flag_open s doc hopen⟩,
    fun hterm => ?_, fun p loc h => quantSum_absent s.quants p loc h⟩
  · by_cases hA : anyShort s doc = true
    · refine iff_of_true ?_ ((anyShort_iff s doc).mp hA)
      rw [delivery_detail_status_open s doc hopen, if_pos hA]
    · refine iff_of_false ?_ fun hex => hA ((anyShort_iff s doc).mpr hex)
      rw [delivery_detail_status_open s doc hopen, if_neg hA]
      decide
  · by_cases hA : anyShort s doc = true
    · refine iff_of_false ?_ fun hnex => hnex ((anyShort_iff s doc).mp hA)
      rw [delivery_detail_status_open s doc hopen, if_pos hA]
      decide
    · refine iff_of_true ?_ fun hex => hA ((anyShort_iff s doc).mpr hex)
      rw [delivery_detail_status_open s doc hopen, if_neg hA]
  · have hno : ¬ (doc.status = "draft" ∨ doc.status = "waiting" ∨ doc.status = "ready") := by
      rcases hterm with h | h <;> rw [h] <;> decide
    unfold delivery_detail_status
    rw [if_neg hno]

/-- Witness for C7: a draft delivery of 30 against 20 on hand, and a Done
delivery that stays untouched. -/
theorem delivery_detail_availability_witness :
    ((delivery_detail_status availStore shortDraftDelivery).1.status = "waiting" ↔
      ∃ line ∈ shortDraftDelivery.lines,
        availableQty availStore line.product shortDraftDelivery.sourceLocation <
          line.quantity) ∧
    ((delivery_detail_status availStore shortDraftDelivery).2 = true ↔
      (delivery_detail_status availStore shortDraftDelivery).1.status ≠
        shortDraftDelivery.status) ∧
    delivery_detail_status availStore doneDelivery = (doneDelivery, false) ∧
    availableQty availStore 1 (some 9) = 0 :=
  ⟨((delivery_detail_availability availStore shortDraftDelivery).1 (by decide)).1,
   ((delivery_detail_availability availStore shortDraftDelivery).1 (by decide)).2.2,
   (delivery_detail_availability availStore doneDelivery).2.1 (by decide),
   (delivery_detail_availability availStore doneDelivery).2.2 1 9 (by decide)⟩

/-- Claim C8: a receipt into destination dl for a product with no quant
at (p, dl) creates that quant row (lazily, appended with the line
quantity), records exactly one ledger entry with null source,
destination dl and delta +q, and marks the document Done. -/
theorem receipt_creates_quant_lazily (s : Store) (doc : StockDocument)
    (p : ProductId) (q : Int) (dl : LocationId)
    (h1 : doc.docType = "receipt") (h2 : doc.status ≠ "done")
    (h3 : doc.destinationLocation = some dl) (h4 : doc.lines = [⟨p, q⟩])
    (h5 : p ∈ s.products) (h6 : ∀ e ∈ s.quants, e.1 ≠ (p, dl)) :
    validate_document s doc =
      .ok ({ s with
              quants := s.quants ++ [((p, dl), q)],
              ledger := s.ledger ++ [⟨some doc.id, p, none, some dl, q⟩] },
           { doc with status := "done" }) ∧
    getQuantValue (s.quants ++ [((p, dl), q)]) p dl = q := by
  have hap := applyLine_receipt doc s ⟨p, q⟩ dl h1 h3 h5
  constructor
  · unfold validate_document
    rw [if_neg h2, h4, processLines_cons_ok doc s _ _ [] hap, processLines_nil_ok]
    rw [show receiptResult doc s ⟨p, q⟩ dl =
        { s with
          quants := s.quants ++ [((p, dl), q)],
          ledger := s.ledger ++ [⟨some doc.id, p, none, some dl, q⟩] } by
      unfold receiptResult
      rw [addQuant_absent s.quants p dl q h6]]
  · rw [← addQuant_absent s.quants p dl q h6, getQuantValue_addQuant, if_pos rfl,
      getQuantValue_absent s.quants p dl h6]
    omega

/-- Witness for C8: the spec's receipt scenario, 50 units into an empty
store. -/
theorem receipt_creates_quant_lazily_witness :
    validate_document demoStore0 receiptFifty =
      .ok ({ demoStore0 with
              quants := demoStore0.quants ++ [((1, 1), 50)],
              ledger := demoStore0.ledger ++ [⟨some receiptFifty.id, 1, none, some 1, 50⟩] },
           { receiptFifty with status := "done" }) ∧
    getQuantValue (demoStore0.quants ++ [((1, 1), 50)]) 1 1 = 50 :=
  receipt_creates_quant_lazily demoStore0 receiptFifty 1 50 1
    (by decide) (by decide) (by decide) (by decide) (by decide) (by decide)

/-- Claim C9: a delivery from source sl subtracts q from the quant at
(p, sl) without any availability check and records one ledger entry with
source sl, null destination and delta -q; validating a shortage drives
the quant negative. -/
theorem delivery_permits_negative_stock (s : Store) (doc : StockDocument)
    (p : ProductId) (q : Int) (sl : LocationId)
    (h1 : doc.docType = "delivery") (h2 : doc.status ≠ "done")
    (h3 : doc.sourceLocation = some sl) (h4 : doc.lines = [⟨p, q⟩])
    (h5 : p ∈ s.products) :
    validate_document s doc =
      .ok ({ s with
              quants := addQuant s.quants p sl (-q),
              ledger := s.ledger ++ [⟨some doc.id, p, some sl, none, -q⟩] },
           { doc with status := "done" }) ∧
    getQuantValue (addQuant s.quants p sl (-q)) p sl =
      getQuantValue s.quants p sl - q := by
  have hap := applyLine_delivery doc s ⟨p, q⟩ sl h1 h3 h5
  constructor
  · unfold validate_document
    rw [if_neg h2, h4, processLines_cons_ok doc s _ _ [] hap, processLines_nil_ok]
    rfl
  · rw [getQuantValue_addQuant, if_pos rfl]
    omega

/-- Witness for C9: forcing a delivery of 30 against 20 on hand leaves a
quant of -10. -/
theorem delivery_permits_negative_stock_witness :
    (validate_document availStore shortDelivery =
      .ok ({ availStore with
              quants := addQuant availStore.quants 1 5 (-30),
              ledger := availStore.ledger ++ [⟨some shortDelivery.id, 1, some 5, none, -30⟩] },
           { shortDelivery with status := "done" }) ∧
     getQuantValue (addQuant availStore.quants 1 5 (-30)) 1 5 =
       getQuantValue availStore.quants 1 5 - 30) ∧
    getQuantValue (addQuant availStore.quants 1 5 (-30)) 1 5 = -10 :=
  ⟨delivery_permits_negative_stock availStore shortDelivery 1 30 5
      (by decide) (by decide) (by decide) (by decide) (by decide),
   by decide⟩

theorem applyLine_status_independent (doc : StockDocument) (x : String)
    (s : Store) (line : StockMoveLine) :
    applyLine { doc with status := x } s line = applyLine doc s line := rfl

theorem processLines_status_independent (doc : StockDocument) (x : String) :
    ∀ (ls : List StockMoveLine) (s : Store),
      processLines { doc with status := x } s ls = processLines doc s ls
  | [], _ => rfl
  | line :: rest, s => by
      cases ha : applyLine doc s line with
      | error e =>
          have ha' : applyLine { doc with status := x } s line = .error e :=
            (applyLine_status_independent doc x s line).trans ha
          rw [processLines_cons_err _ _ _ _ _ ha', processLines_cons_err _ _ _ _ _ ha]
      | ok s1 =>
          have ha' : applyLine { doc with status := x } s line = .ok s1 :=
            (applyLine_status_independent doc x s line).trans ha
          rw [processLines_cons_ok _ _ _ _ _ ha', processLines_cons_ok _ _ _ _ _ ha]
          exact processLines_status_independent doc x rest s1

/-- Claim C10: validation short-circuits only on Done.  A call returns
the state and document unchanged exactly when the entry status is Done;
a Canceled document is validated exactly like a Draft one (it is not
terminal for validation), and a successful validation of it ends in
status Done. -/
theorem validate_short_circuit_only_done (s : Store) (doc : StockDocument) :
    (validate_document s doc = .ok (s, doc) ↔ doc.status = "done") ∧
    (doc.status = "canceled" →
      validate_document s doc = validate_document s { doc with status := "draft" }) ∧
    (doc.status = "canceled" → ∀ s1 d1, validate_document s doc = .ok (s1, d1) →
      d1.status = "done") := by
  refine ⟨⟨fun h => ?_, fun h => validate_document_of_done s doc h⟩, fun h => ?_,
    fun h s1 d1 hv => validate_document_status s doc s1 d1 hv⟩
  · by_cases hst : doc.status = "done"
    · exact hst
    · exfalso
      unfold validate_document at h
      rw [if_neg hst] at h
      cases hp : processLines doc s doc.lines with
      | error e => rw [hp] at h; simp at h
      | ok s2 =>
          rw [hp] at h
          simp only [Except.ok.injEq, Prod.mk.injEq] at h
          obtain ⟨-, h2⟩ := h
          have h3 := congrArg StockDocument.status h2
          simp only at h3
          exact hst h3.symm
  · have h1 : doc.status ≠ "done" := by rw [h]; decide
    have h2 : ({ doc with status := "draft" } : StockDocument).status ≠ "done" :=
      fun hx => absurd hx (show ¬ (("draft" : String) = "done") by decide)
    cases hp : processLines doc s doc.lines with
    | error e =>
        have hp' : processLines { doc with status := "draft" } s
            ({ doc with status := "draft" } : StockDocument).lines = .error e :=
          (processLines_status_independent doc "draft" doc.lines s).trans hp
        unfold validate_document
        rw [if_neg h1, if_neg h2, hp, hp']
    | ok s2 =>
        have hp' : processLines { doc with status := "draft" } s
            ({ doc with status := "draft" } : StockDocument).lines = .ok s2 :=
          (processLines_status_independent doc "draft" doc.lines s).trans hp
        unfold validate_document
        rw [if_neg h1, if_neg h2, hp, hp']

/-- Witness for C10 at a concrete Canceled receipt: it is fully applied
and ends Done. -/
theorem validate_short_circuit_only_done_witness :
    (validate_document demoStore0 canceledReceipt = .ok (demoStore0, canceledReceipt) ↔
      canceledReceipt.status = "done") ∧
    validate_document demoStore0 canceledReceipt =
      validate_document demoStore0 { canceledReceipt with status := "draft" } ∧
    ({ canceledReceipt with status := "done" } : StockDocument).status = "done" :=
  ⟨(validate_short_circuit_only_done demoStore0 canceledReceipt).1,
   (validate_short_circuit_only_done demoStore0 canceledReceipt).2.1 rfl,
   (validate_short_circuit_only_done demoStore0 canceledReceipt).2.2 rfl
     canceledReceiptStore { canceledReceipt with status := "done" } (by decide)⟩
